import Mathlib

/-!
Verification of the job pipeline of `bot.py` (Telegram video segmentation bot).

The Python source is shallowly embedded: the per-requester mutable dictionary
`context.user_data` becomes the structure `UD`; handlers become pure functions
from a callback/message plus the current state to a new state and a reply
token; external effects (HTTP response bodies, ffprobe/ffmpeg process
outcomes, filesystem removal failures) are passed in as explicit data so that
every control path of the Python code is a case of a total Lean function.
Floating point durations are modelled as exact rationals `ℚ`.
-/

/-- One reply token per distinct user-visible message site in `bot.py`.
The Arabic message texts are abstracted to tokens; what matters for the
claims is which site replied, not the wording. -/
inductive Reply
  | noReply
  | dashboard
  | resetRefused
  | resetDone
  | cancelRequested
  | promptVideoFile
  | promptAudioFile
  | promptVideoUrl
  | promptAudioUrl
  | alreadyRunning
  | missingInputs
  | started
  | busy
  | badUrl
  | downloadFailed
  | savedVideo
  | savedAudio
  | otherMessage
  | pyException
deriving DecidableEq, Repr

/-- The per-requester state: the fields `get_state` installs in
`context.user_data` (bot.py lines 116-136). -/
structure UD where
  seg_len : ℕ
  audio_mode : String
  sync_mode : String
  quality : String
  cleanup : Bool
  asmr_level : String
  view : String
  expected : Option String
  job_running : Bool
  cancel : Bool
  work_dir : Option String
  video_path : Option String
  audio_path : Option String
deriving DecidableEq, Repr

/-- `SEGMENT_OPTIONS` (bot.py line 31). -/
def SEGMENT_OPTIONS : List ℕ := [60, 120, 180, 300]

/-- Keys of `AUDIO_MODES` (bot.py lines 42-45). -/
def AUDIO_MODES : List String := ["replace", "mix"]

/-- Keys of `SYNC_MODES` (bot.py lines 47-50). -/
def SYNC_MODES : List String := ["restart", "cont"]

/-- Keys of `QUALITY_PRESETS` (bot.py lines 36-40). -/
def QUALITY_PRESETS : List String := ["fast", "bal", "high"]

/-- Keys of `ASMR_LEVELS` (bot.py lines 52-56). -/
def ASMR_LEVELS : List String := ["light", "med", "full"]

/-- Helper for `pySplit`: split a character list at every occurrence of the
separator (Lean's built-in `String.splitOn` is position-based and does not
reduce in the kernel, so the split is re-implemented structurally). -/
def splitOnChar (c : Char) : List Char → List (List Char)
  | [] => [[]]
  | a :: rest =>
    let r := splitOnChar c rest
    if a = c then [] :: r
    else
      match r with
      | [] => [[a]]
      | g :: gs => (a :: g) :: gs

/-- Python `s.split(sep)` for a single-character separator, as used by
`data.split("_")` in `on_callback`. -/
def pySplit (sep : Char) (s : String) : List String :=
  (splitOnChar sep s.data).map String.mk

/-- Python `s.startswith(p)`. -/
def pyStartsWith (s p : String) : Bool := p.data.isPrefixOf s.data

/-- Accumulator loop of `pyInt`. -/
def digitsToNat : List Char → ℕ → Option ℕ
  | [], acc => some acc
  | d :: rest, acc => if d.isDigit then digitsToNat rest (acc * 10 + (d.toNat - 48)) else none

/-- Python `int(s)` restricted to the unsigned decimal strings that reach it
in `on_callback` (`"60"`, `"120"`, …); `none` models the `ValueError` raised
on a non-numeric string. -/
def pyInt (s : String) : Option ℕ :=
  match s.data with
  | [] => none
  | _ :: _ => digitsToNat s.data 0

/-- `ensure_job_dir(ud, user_id, reset=True)` (bot.py lines 138-157):
removes the old working directory, clears the input paths, and allocates a
fresh working directory.  The fresh uuid-based directory name is supplied
as the argument `fresh`. -/
def ensure_job_dir_reset (fresh : String) (ud : UD) : UD :=
  { ud with work_dir := some fresh, video_path := none, audio_path := none }

/-- `data.split("_")[1]` (bot.py lines 386, 393, 400, 407, 414). -/
def splitField (data : String) : String :=
  (pySplit '_' data).getD 1 ""

/-- The `on_callback` handler (bot.py lines 327-458), as a function from the
callback data string and the current state to the new state and the reply
sent.  `fresh` stands for the uuid directory name `ensure_job_dir` would
create on reset; `Reply.pyException` marks the paths where the Python code
would raise (e.g. `int()` on a non-numeric segment suffix). -/
def on_callback (fresh : String) (data : String) (ud : UD) : UD × Reply :=
  if data = "noop" then (ud, .noReply)
  else if data = "main" then ({ ud with view := "main" }, .dashboard)
  else if data = "settings" then ({ ud with view := "settings" }, .dashboard)
  else if data = "reset" then
    if ud.job_running then (ud, .resetRefused)
    else ({ ensure_job_dir_reset fresh ud with expected := none, view := "main" }, .resetDone)
  else if data = "cancel" then ({ ud with cancel := true }, .cancelRequested)
  else if data = "need_video_file" then ({ ud with expected := some "video_file" }, .promptVideoFile)
  else if data = "need_audio_file" then ({ ud with expected := some "audio_file" }, .promptAudioFile)
  else if data = "need_video_url" then ({ ud with expected := some "video_url" }, .promptVideoUrl)
  else if data = "need_audio_url" then ({ ud with expected := some "audio_url" }, .promptAudioUrl)
  else if pyStartsWith data "seg_" then
    match pyInt (splitField data) with
    | none => (ud, .pyException)
    | some sec =>
      (if sec ∈ SEGMENT_OPTIONS then { ud with seg_len := sec } else ud, .dashboard)
  else if pyStartsWith data "mode_" then
    (if splitField data ∈ AUDIO_MODES then { ud with audio_mode := splitField data } else ud,
     .dashboard)
  else if pyStartsWith data "sync_" then
    (if splitField data ∈ SYNC_MODES then { ud with sync_mode := splitField data } else ud,
     .dashboard)
  else if pyStartsWith data "q_" then
    (if splitField data ∈ QUALITY_PRESETS then { ud with quality := splitField data } else ud,
     .dashboard)
  else if pyStartsWith data "asmr_" then
    (if splitField data ∈ ASMR_LEVELS then { ud with asmr_level := splitField data } else ud,
     .dashboard)
  else if data = "toggle_cleanup" then ({ ud with cleanup := !ud.cleanup }, .dashboard)
  else if data = "go" then
    if ud.job_running then (ud, .alreadyRunning)
    else if ud.video_path = none ∨ ud.audio_path = none then (ud, .missingInputs)
    else
      ({ ud with cancel := false, job_running := true, expected := none, view := "main" },
       .started)
  else (ud, .noReply)

/-- Idle state with both inputs selected, used as a concrete test state. -/
def udReady : UD :=
  { seg_len := 180, audio_mode := "replace", sync_mode := "cont", quality := "bal",
    cleanup := true, asmr_level := "full", view := "main", expected := none,
    job_running := false, cancel := false, work_dir := some "job_a1",
    video_path := some "job_a1/input_video.mp4", audio_path := some "job_a1/input_audio.mp3" }

/-- The same state while a job is running. -/
def udRunning : UD := { udReady with job_running := true }

/-- C3 counterexample: with a job running (`job_running = true`), pressing the
`seg_60` settings button still mutates the stored segment length from 180 to
60 — the settings branches of `on_callback` never test the running flag, so
the edit is not rejected. -/
theorem config_edit_while_running_not_rejected :
    udRunning.job_running = true ∧ udRunning.seg_len = 180 ∧
    (on_callback "job_b2" "seg_60" udRunning).1.seg_len = 60 := by
  refine ⟨rfl, rfl, ?_⟩
  rfl

/-- C3 (amended): while a job is running, `reset` and `go` are rejected and
leave the state unchanged, but every configuration edit (segment length,
audio mode, sync mode, quality preset, ASMR level, cleanup toggle) is still
accepted and mutates the stored JobConfig field. -/
theorem config_edits_accepted_while_running (fresh : String) (ud : UD)
    (h : ud.job_running = true) :
    on_callback fresh "reset" ud = (ud, .resetRefused) ∧
    on_callback fresh "go" ud = (ud, .alreadyRunning) ∧
    (on_callback fresh "seg_60" ud).1.seg_len = 60 ∧
    (on_callback fresh "mode_mix" ud).1.audio_mode = "mix" ∧
    (on_callback fresh "sync_restart" ud).1.sync_mode = "restart" ∧
    (on_callback fresh "q_high" ud).1.quality = "high" ∧
    (on_callback fresh "asmr_light" ud).1.asmr_level = "light" ∧
    (on_callback fresh "toggle_cleanup" ud).1.cleanup = !ud.cleanup := by
  refine ⟨?_, ?_, rfl, rfl, rfl, rfl, rfl, rfl⟩
  · simp only [on_callback, h]
    rfl
  · simp only [on_callback, h]
    rfl

/-- C3 witness: the amended statement evaluated on the concrete running
state `udRunning`. -/
theorem config_edits_accepted_while_running_witness :
    on_callback "job_b2" "reset" udRunning = (udRunning, .resetRefused) ∧
    on_callback "job_b2" "go" udRunning = (udRunning, .alreadyRunning) ∧
    (on_callback "job_b2" "seg_60" udRunning).1.seg_len = 60 ∧
    (on_callback "job_b2" "mode_mix" udRunning).1.audio_mode = "mix" ∧
    (on_callback "job_b2" "sync_restart" udRunning).1.sync_mode = "restart" ∧
    (on_callback "job_b2" "q_high" udRunning).1.quality = "high" ∧
    (on_callback "job_b2" "asmr_light" udRunning).1.asmr_level = "light" ∧
    (on_callback "job_b2" "toggle_cleanup" udRunning).1.cleanup = !udRunning.cleanup :=
  config_edits_accepted_while_running "job_b2" udRunning rfl

/-- C7: a `go` request while `job_running` is already true is answered
synchronously with the already-running reply and leaves the entire state —
running flag, cancel flag, inputs, working directory, configuration —
unchanged (the returned state is the input state itself). -/
theorem go_while_running_rejected (fresh : String) (ud : UD)
    (h : ud.job_running = true) :
    on_callback fresh "go" ud = (ud, .alreadyRunning) := by
  simp only [on_callback, h]
  rfl

/-- C7 witness: the rejection evaluated on the concrete running state. -/
theorem go_while_running_rejected_witness :
    on_callback "job_b2" "go" udRunning = (udRunning, .alreadyRunning) :=
  go_while_running_rejected "job_b2" udRunning rfl

/-- Error outcomes of `download_http` (bot.py lines 289-306):
`httpStatus` models `resp.raise_for_status()`, `tooLargeAdvertised` the
advertised-content-length ceiling check, `tooLargeStreamed` the mid-stream
cumulative-bytes check. -/
inductive DlError
  | httpStatus
  | tooLargeAdvertised
  | tooLargeStreamed
deriving DecidableEq, Repr

/-- An HTTP response as `download_http` observes it: the status outcome,
the advertised `Content-Length` (if any), and the sizes of the successive
chunks `resp.content.iter_chunked(1024 * 1024)` yields (each is at most
1 MiB; only the sizes matter to the ceiling logic). -/
structure Response where
  ok : Bool
  content_length : Option ℕ
  chunks : List ℕ
deriving DecidableEq, Repr

/-- The outcome of `download_http`: the destination file (`none` if it was
never created, `some sizes` for the chunk sizes written to it) and either
the byte count returned or the error raised. -/
structure DlResult where
  file : Option (List ℕ)
  result : Except DlError ℕ
deriving Repr

/-- The chunk loop of `download_http` (bot.py lines 298-305): skip empty
chunks, write each chunk, add its length to `downloaded`, and raise as soon
as `downloaded` exceeds `max_bytes`. -/
def writeLoop (maxBytes : ℕ) : List ℕ → ℕ → List ℕ → List ℕ × Except DlError ℕ
  | [], downloaded, written => (written, .ok downloaded)
  | c :: rest, downloaded, written =>
    if c = 0 then writeLoop maxBytes rest downloaded written
    else
      if downloaded + c > maxBytes then (written ++ [c], .error .tooLargeStreamed)
      else writeLoop maxBytes rest (downloaded + c) (written ++ [c])

/-- `download_http(url, dest, max_bytes)` (bot.py lines 289-306). -/
def download_http (resp : Response) (maxBytes : ℕ) : DlResult :=
  if resp.ok = false then ⟨none, .error .httpStatus⟩
  else
    match resp.content_length with
    | some total =>
      if total > maxBytes then ⟨none, .error .tooLargeAdvertised⟩
      else
        let r := writeLoop maxBytes resp.chunks 0 []
        ⟨some r.1, r.2⟩
    | none =>
      let r := writeLoop maxBytes resp.chunks 0 []
      ⟨some r.1, r.2⟩

/-- C4: when the server advertises a content length above the byte ceiling,
`download_http` raises the too-large error and the destination file is never
created — the check happens before `open(dest, "wb")`, so not a single byte
is written. -/
theorem advertised_too_large_aborts_before_write (resp : Response) (maxBytes total : ℕ)
    (hok : resp.ok = true) (hlen : resp.content_length = some total)
    (hbig : total > maxBytes) :
    download_http resp maxBytes = ⟨none, .error .tooLargeAdvertised⟩ := by
  simp [download_http, hok, hlen, hbig]

/-- C4 witness: a 500 MiB advertised length against the default 400 MiB
ceiling. -/
theorem advertised_too_large_aborts_before_write_witness :
    download_http ⟨true, some 524288000, [1048576]⟩ 419430400 =
      ⟨none, .error .tooLargeAdvertised⟩ :=
  advertised_too_large_aborts_before_write ⟨true, some 524288000, [1048576]⟩ 419430400 524288000
    rfl rfl (by norm_num)

/-- Invariant-carrying form of the C5 streaming argument: if what is already
written stays within the ceiling but the remaining chunks push past it, the
loop stops with the too-large error exactly at the first chunk that crosses
the ceiling: everything written except the final chunk sums to at most the
ceiling, and with it the sum exceeds the ceiling. -/
theorem writeLoop_exceeds (maxBytes : ℕ) :
    ∀ (cs : List ℕ) (downloaded : ℕ) (written : List ℕ),
      downloaded = written.sum → downloaded ≤ maxBytes →
      written.dropLast.sum ≤ maxBytes → maxBytes < downloaded + cs.sum →
      ∃ w, writeLoop maxBytes cs downloaded written = (w, .error .tooLargeStreamed) ∧
        maxBytes < w.sum ∧ w.dropLast.sum ≤ maxBytes := by
  intro cs
  induction cs with
  | nil =>
    intro downloaded written _ hle _ hbig
    simp only [List.sum_nil, Nat.add_zero] at hbig
    omega
  | cons c rest ih =>
    intro downloaded written hsum hle hdrop hbig
    by_cases hc : c = 0
    · subst hc
      simp only [writeLoop, if_pos rfl]
      exact ih downloaded written hsum hle hdrop (by simpa using hbig)
    · simp only [writeLoop, if_neg hc]
      by_cases hover : downloaded + c > maxBytes
      · refine ⟨written ++ [c], by simp [hover], ?_, ?_⟩
        · simpa [hsum] using hover
        · simpa [List.dropLast_concat, ← hsum] using hle
      · rw [if_neg hover]
        refine ih (downloaded + c) (written ++ [c]) (by simp [hsum]) (by omega) ?_ ?_
        · simpa [List.dropLast_concat, ← hsum] using hle
        · simp only [List.sum_cons] at hbig
          omega

/-- The direct-URL branch of `on_message` (bot.py lines 460-505), for a
requester whose `expected` field is `video_url` or `audio_url`.  `fresh` is
the directory `ensure_job_dir` would create when none exists; `dl` is the
outcome of the awaited `download_http` call (the response itself is
external input).  On any download exception the handler replies with the
failure text and returns before the input path is adopted. -/
def on_message_url (fresh : String) (text : String) (dl : Except DlError ℕ) (ud : UD) :
    UD × Reply :=
  if ud.job_running then (ud, .busy)
  else
    let ud1 := match ud.work_dir with
      | some _ => ud
      | none => { ud with work_dir := some fresh }
    let wd := ud1.work_dir.getD ""
    if ud.expected = some "video_url" ∨ ud.expected = some "audio_url" then
      if !(pyStartsWith text "http://" || pyStartsWith text "https://") then (ud1, .badUrl)
      else if ud.expected = some "video_url" then
        match dl with
        | .error _ => (ud1, .downloadFailed)
        | .ok _ =>
          ({ ud1 with video_path := some (wd ++ "/input_video.mp4"), expected := none },
           .savedVideo)
      else
        match dl with
        | .error _ => (ud1, .downloadFailed)
        | .ok _ =>
          ({ ud1 with audio_path := some (wd ++ "/input_audio.mp3"), expected := none },
           .savedAudio)
    else (ud1, .otherMessage)

/-- C5: with no advertised content length, `download_http` streams chunk by
chunk and raises the too-large error at the first chunk that pushes the
cumulative byte count past the ceiling (everything before that chunk is
within the ceiling); and whenever `download_http` raises, the `on_message`
URL branch replies with the failure and leaves both input-path references
exactly as they were, so the partial file is never adopted as an input. -/
theorem streaming_past_ceiling_not_adopted (resp : Response) (maxBytes : ℕ)
    (hok : resp.ok = true) (hlen : resp.content_length = none)
    (hbig : maxBytes < resp.chunks.sum) :
    (∃ w, download_http resp maxBytes = ⟨some w, .error .tooLargeStreamed⟩ ∧
      maxBytes < w.sum ∧ w.dropLast.sum ≤ maxBytes) ∧
    (∀ (fresh text : String) (e : DlError) (ud : UD),
      (on_message_url fresh text (.error e) ud).1.video_path = ud.video_path ∧
      (on_message_url fresh text (.error e) ud).1.audio_path = ud.audio_path) := by
  constructor
  · obtain ⟨w, hw, h1, h2⟩ :=
      writeLoop_exceeds maxBytes resp.chunks 0 [] rfl (Nat.zero_le _) (by simp) (by simpa using hbig)
    refine ⟨w, ?_, h1, h2⟩
    simp [download_http, hok, hlen, hw]
  · intro fresh text e ud
    unfold on_message_url
    by_cases hr : ud.job_running
    · simp [hr]
    · simp only [hr, if_false, Bool.false_eq_true]
      cases hwd : ud.work_dir <;>
        by_cases hv : ud.expected = some "video_url" <;>
          by_cases ha : ud.expected = some "audio_url" <;>
            simp only [hwd, hv, ha] <;>
              constructor <;> (repeat' split) <;> rfl

/-- C5 witness: two 1 MiB chunks against a 1.5 MB ceiling with no advertised
length — the download stops with the streamed-too-large error. -/
theorem streaming_past_ceiling_not_adopted_witness :
    (∃ w, download_http ⟨true, none, [1048576, 1048576]⟩ 1500000 =
        ⟨some w, .error .tooLargeStreamed⟩ ∧
      1500000 < w.sum ∧ w.dropLast.sum ≤ 1500000) ∧
    (∀ (fresh text : String) (e : DlError) (ud : UD),
      (on_message_url fresh text (.error e) ud).1.video_path = ud.video_path ∧
      (on_message_url fresh text (.error e) ud).1.audio_path = ud.audio_path) :=
  streaming_past_ceiling_not_adopted ⟨true, none, [1048576, 1048576]⟩ 1500000
    rfl rfl (by norm_num)

/-- Python `s.strip()`: remove leading and trailing whitespace. -/
def pyStrip (s : String) : String :=
  String.mk (((s.data.dropWhile Char.isWhitespace).reverse.dropWhile Char.isWhitespace).reverse)

/-- Python `s[:n]`: truncate to the first `n` characters. -/
def pyTake (n : ℕ) (s : String) : String :=
  String.mk (s.data.take n)

/-- Unsigned part of `pyFloat`: Python `float(s)` on a plain decimal string
`digits` or `digits.digits` (the only shapes ffprobe's duration output
takes). -/
def parseUnsigned (s : String) : Option ℚ :=
  match pySplit '.' s with
  | [a] => (pyInt a).map (fun n => (n : ℚ))
  | [a, b] =>
    match pyInt a, pyInt b with
    | some x, some y => some ((x : ℚ) + (y : ℚ) / (10 : ℚ) ^ b.length)
    | _, _ => none
  | _ => none

/-- Python `float(s)` restricted to the decimal strings ffprobe emits
(optionally negative, `digits` or `digits.digits`); `none` models the
`ValueError` raised on anything else (e.g. ffprobe printing `N/A`). -/
def pyFloat (s : String) : Option ℚ :=
  if pyStartsWith s "-" then (parseUnsigned (String.mk s.data.tail)).map (fun q => -q)
  else parseUnsigned s

/-- Outcome of `ffprobe_duration` (bot.py lines 77-87): the parsed duration,
the `RuntimeError` carrying truncated ffprobe diagnostics, or the bare
`ValueError` that `float()` raises on unparsable non-empty output. -/
inductive ProbeResult
  | ok (d : ℚ)
  | probeFailed (msg : String)
  | parseError
deriving DecidableEq, Repr

/-- `ffprobe_duration(path)` (bot.py lines 77-87) as a function of the
external probe's exit code, stdout and stderr. -/
def ffprobe_duration (code : ℤ) (out err : String) : ProbeResult :=
  if code ≠ 0 ∨ pyStrip out = "" then .probeFailed (pyTake 1500 err)
  else
    match pyFloat (pyStrip out) with
    | some q => .ok q
    | none => .parseError

/-- C8 counterexample: when the probe exits 0 and prints `0.000000` (as
ffprobe does for an empty or corrupt container), `ffprobe_duration` returns
the duration 0 — not strictly positive — without raising any error: the
code never validates the parsed value's sign. -/
theorem ffprobe_duration_returns_zero :
    ffprobe_duration 0 "0.000000" "" = ProbeResult.ok 0 ∧ ¬ (0 : ℚ) < 0 := by
  constructor
  · have h : ffprobe_duration 0 "0.000000" "" =
        .ok (((0 : ℕ) : ℚ) + ((0 : ℕ) : ℚ) / (10 : ℚ) ^ (6 : ℕ)) := rfl
    rw [h]
    norm_num
  · simp

/-- C8 (amended): `ffprobe_duration` raises the diagnostic-carrying error
exactly when the probe exits non-zero or prints only whitespace; otherwise
it returns whatever value the output parses to, with no positivity check —
zero and negative durations are passed through. -/
theorem ffprobe_duration_no_positivity_check :
    (∀ (code : ℤ) (out err : String), code ≠ 0 ∨ pyStrip out = "" →
      ffprobe_duration code out err = .probeFailed (pyTake 1500 err)) ∧
    (∀ (out err : String) (q : ℚ), pyFloat (pyStrip out) = some q →
      ffprobe_duration 0 out err = .ok q) := by
  constructor
  · intro code out err h
    rw [ffprobe_duration, if_pos h]
  · intro out err q h
    have hne : pyStrip out ≠ "" := by
      intro he
      rw [he] at h
      have : pyFloat "" = none := rfl
      rw [this] at h
      exact Option.noConfusion h
    rw [ffprobe_duration, if_neg (by simp [hne]), h]

/-- C8 amended-claim witness: a failing probe yields the truncated
diagnostic error, and exit 0 with output `2.500000` yields exactly 5/2. -/
theorem ffprobe_duration_no_positivity_check_witness :
    ffprobe_duration 1 "" "boom" = .probeFailed (pyTake 1500 "boom") ∧
    ffprobe_duration 0 "2.500000" "x" = .ok (5 / 2) :=
  ⟨ffprobe_duration_no_positivity_check.1 1 "" "boom" (Or.inl (by decide)),
   ffprobe_duration_no_positivity_check.2 "2.500000" "x" (5 / 2) (by
     have h : pyFloat (pyStrip "2.500000") =
         some (((2 : ℕ) : ℚ) + ((500000 : ℕ) : ℚ) / (10 : ℚ) ^ (6 : ℕ)) := rfl
     rw [h]
     norm_num)⟩

/-- `n = max(1, math.ceil(video_dur / seg_len))` (bot.py line 615).
`math.ceil` returns an integer that is non-positive exactly when the
quotient is, so taking `max 1` of the natural-number ceiling agrees with
the Python expression for every input. -/
def nSegments (D : ℚ) (L : ℕ) : ℕ := max 1 ⌈D / (L : ℚ)⌉₊

/-- The segmentation loop of `process_job` (bot.py lines 646-654) restricted
to the values it derives: for each iteration, `start = i * seg_len`,
`length = min(seg_len, max(0.0, video_dur - start))`, breaking when
`length <= 0`.  `fuel` is the number of remaining `range(n)` iterations. -/
def segLoop (D : ℚ) (L : ℕ) : ℕ → ℕ → List (ℚ × ℚ)
  | 0, _ => []
  | fuel + 1, i =>
    let start : ℚ := (i : ℚ) * L
    let length := min (L : ℚ) (max 0 (D - start))
    if length ≤ 0 then []
    else (start, length) :: segLoop D L fuel (i + 1)

/-- The list of (start, length) pairs the segmentation loop produces. -/
def segments (D : ℚ) (L : ℕ) : List (ℚ × ℚ) := segLoop D L (nSegments D L) 0

/-- For a positive duration the `max 1` in `nSegments` is redundant. -/
theorem nSegments_eq_ceil (D : ℚ) (L : ℕ) (hD : 0 < D) (hL : 0 < L) :
    nSegments D L = ⌈D / (L : ℚ)⌉₊ := by
  have hLq : (0 : ℚ) < (L : ℚ) := by exact_mod_cast hL
  exact max_eq_right (Nat.ceil_pos.mpr (div_pos hD hLq))

/-- Every index strictly below the segment count starts strictly inside the
video: `i * L < D`. -/
theorem start_lt_duration (D : ℚ) (L : ℕ) (hD : 0 < D) (hL : 0 < L) :
    ∀ i, i < nSegments D L → (i : ℚ) * L < D := by
  intro i hi
  have hLq : (0 : ℚ) < (L : ℚ) := by exact_mod_cast hL
  rw [nSegments_eq_ceil D L hD hL] at hi
  have : (i : ℚ) < D / L := Nat.lt_ceil.mp hi
  exact (lt_div_iff₀ hLq).mp this

/-- The segment count covers the whole duration: `D ≤ n * L`. -/
theorem duration_le_nSegments_mul (D : ℚ) (L : ℕ) (hD : 0 < D) (hL : 0 < L) :
    D ≤ (nSegments D L : ℚ) * L := by
  have hLq : (0 : ℚ) < (L : ℚ) := by exact_mod_cast hL
  rw [nSegments_eq_ceil D L hD hL]
  have : D / L ≤ (⌈D / (L : ℚ)⌉₊ : ℚ) := Nat.le_ceil _
  exact (div_le_iff₀ hLq).mp this

/-- As long as every remaining index starts inside the video, the loop never
hits its break and produces one segment per index, with the recorded start
and clamped length. -/
theorem segLoop_eq_map (D : ℚ) (L : ℕ) (hL : 0 < L) :
    ∀ (fuel i : ℕ), (∀ j, j < fuel → ((i + j : ℕ) : ℚ) * L < D) →
      segLoop D L fuel i =
        (List.range fuel).map
          (fun k => (((i + k : ℕ) : ℚ) * L, min (L : ℚ) (D - ((i + k : ℕ) : ℚ) * L))) := by
  intro fuel
  induction fuel with
  | zero => intro i _; rfl
  | succ f ih =>
    intro i h
    have h0 : (i : ℚ) * L < D := by simpa using h 0 f.succ_pos
    have hLq : (0 : ℚ) < (L : ℚ) := by exact_mod_cast hL
    have hmax : max (0 : ℚ) (D - (i : ℚ) * L) = D - (i : ℚ) * L :=
      max_eq_right (by linarith)
    have hpos : ¬ (min (L : ℚ) (max 0 (D - (i : ℚ) * L)) ≤ 0) := by
      rw [hmax]
      push_neg
      exact lt_min hLq (by linarith)
    have htail : ∀ j, j < f → (((i + 1) + j : ℕ) : ℚ) * L < D := by
      intro j hj
      have hje := h (j + 1) (by omega)
      have heq : i + (j + 1) = (i + 1) + j := by omega
      rwa [heq] at hje
    simp only [segLoop]
    rw [if_neg hpos]
    rw [ih (i + 1) htail, List.range_succ_eq_map, List.map_cons, List.map_map]
    congr 1
    · rw [hmax]
      norm_num
    · apply List.map_congr_left
      intro k _
      have heq : (i + 1) + k = i + (k + 1) := by omega
      simp [Function.comp, heq]

/-- The segmentation loop, started as `process_job` starts it, yields
exactly the derived segment list. -/
theorem segments_eq_map (D : ℚ) (L : ℕ) (hD : 0 < D) (hL : 0 < L) :
    segments D L =
      (List.range (nSegments D L)).map
        (fun (k : ℕ) => ((k : ℚ) * L, min (L : ℚ) (D - (k : ℚ) * L))) := by
  rw [segments,
    segLoop_eq_map D L hL (nSegments D L) 0
      (fun j hj => by simpa using start_lt_duration D L hD hL j hj)]
  apply List.map_congr_left
  intro k _
  norm_num

/-- The loop produces exactly `nSegments D L` segments. -/
theorem segments_length (D : ℚ) (L : ℕ) (hD : 0 < D) (hL : 0 < L) :
    (segments D L).length = nSegments D L := by
  rw [segments_eq_map D L hD hL, List.length_map, List.length_range]

/-- Segment `i` starts at `i * L` and has the clamped length
`min L (D - i * L)`. -/
theorem segments_get (D : ℚ) (L : ℕ) (hD : 0 < D) (hL : 0 < L) (i : ℕ)
    (h : i < (segments D L).length) :
    (segments D L).get ⟨i, h⟩ = ((i : ℚ) * L, min (L : ℚ) (D - (i : ℚ) * L)) := by
  simp only [List.get_eq_getElem]
  simp only [segments_eq_map D L hD hL, List.getElem_map, List.getElem_range]

/-- A non-final segment's clamped length is exactly `L`. -/
theorem min_eq_seg_len (D : ℚ) (L : ℕ) (hD : 0 < D) (hL : 0 < L) (i : ℕ)
    (hi : i + 1 < nSegments D L) : min (L : ℚ) (D - (i : ℚ) * L) = (L : ℚ) := by
  apply min_eq_left
  have := start_lt_duration D L hD hL (i + 1) hi
  push_cast at this
  linarith

/-- The final segment's clamped length is the remainder `D - (n-1) * L`. -/
theorem min_eq_remainder (D : ℚ) (L : ℕ) (hD : 0 < D) (hL : 0 < L) :
    min (L : ℚ) (D - ((nSegments D L - 1 : ℕ) : ℚ) * L) =
      D - ((nSegments D L - 1 : ℕ) : ℚ) * L := by
  apply min_eq_right
  have hn1 : 1 ≤ nSegments D L := le_max_left 1 _
  have hcast : ((nSegments D L - 1 : ℕ) : ℚ) = (nSegments D L : ℚ) - 1 := by
    push_cast [Nat.cast_sub hn1]
    ring
  have hle := duration_le_nSegments_mul D L hD hL
  rw [hcast]
  nlinarith

/-- C1: for a positive duration `D` and positive segment length `L`, the
segmentation loop produces exactly `⌈D / L⌉` segments; segment `i`
(0-based) starts at `i * L`; every segment but the last has length exactly
`L`; the last segment has length `D − (n − 1) * L`; and the lengths sum to
`D` exactly, hence in particular within the 1e-3 s tolerance. -/
theorem segmentation_correct (D : ℚ) (L : ℕ) (hD : 0 < D) (hL : 0 < L) :
    (((segments D L).length : ℤ) = ⌈D / (L : ℚ)⌉) ∧
    (∀ i (h : i < (segments D L).length), ((segments D L).get ⟨i, h⟩).1 = (i : ℚ) * L) ∧
    (∀ i (h : i < (segments D L).length),
      i + 1 < (segments D L).length → ((segments D L).get ⟨i, h⟩).2 = (L : ℚ)) ∧
    (∀ h : (segments D L).length - 1 < (segments D L).length,
      ((segments D L).get ⟨(segments D L).length - 1, h⟩).2 =
        D - (((segments D L).length - 1 : ℕ) : ℚ) * L) ∧
    ((segments D L).map Prod.snd).sum = D ∧
    |((segments D L).map Prod.snd).sum - D| ≤ 1 / 1000 := by
  have hLq : (0 : ℚ) < (L : ℚ) := by exact_mod_cast hL
  have hlen := segments_length D L hD hL
  have hn1 : 1 ≤ nSegments D L := le_max_left 1 _
  have hsum : ((segments D L).map Prod.snd).sum = D := by
    rw [segments_eq_map D L hD hL, List.map_map]
    obtain ⟨m, hm⟩ : ∃ m, nSegments D L = m + 1 := ⟨nSegments D L - 1, by omega⟩
    rw [hm, List.range_succ, List.map_append, List.sum_append]
    have hconst : (List.range m).map
          ((Prod.snd ∘ fun (k : ℕ) => ((k : ℚ) * L, min (L : ℚ) (D - (k : ℚ) * L)))) =
        (List.range m).map (fun _ => (L : ℚ)) := by
      apply List.map_congr_left
      intro k hk
      have hk' : k < m := List.mem_range.mp hk
      simpa [Function.comp] using min_eq_seg_len D L hD hL k (by omega)
    rw [hconst]
    have hlastv := min_eq_remainder D L hD hL
    rw [hm] at hlastv
    simp only [Nat.add_sub_cancel] at hlastv
    simp only [Function.comp, List.map_cons, List.map_nil, List.sum_cons, List.sum_nil,
      List.map_const']
    rw [List.sum_replicate, List.length_range, nsmul_eq_mul, hlastv]
    ring
  refine ⟨?_, ?_, ?_, ?_, hsum, ?_⟩
  · rw [hlen, nSegments_eq_ceil D L hD hL]
    exact Int.natCast_ceil_eq_ceil (le_of_lt (div_pos hD hLq))
  · intro i h
    rw [segments_get D L hD hL i h]
  · intro i h hi1
    rw [segments_get D L hD hL i h]
    exact min_eq_seg_len D L hD hL i (by rwa [hlen] at hi1)
  · intro h
    rw [segments_get D L hD hL _ h, hlen]
    exact min_eq_remainder D L hD hL
  · rw [hsum]
    norm_num

/-- C1 witness: duration 400 s with 180 s segments — the concrete scenario
from the spec: three segments, starts 0/180/360, lengths 180/180/40,
summing to 400 exactly. -/
theorem segmentation_correct_witness :
    (((segments 400 180).length : ℤ) = ⌈(400 : ℚ) / ((180 : ℕ) : ℚ)⌉) ∧
    (∀ i (h : i < (segments 400 180).length),
      ((segments 400 180).get ⟨i, h⟩).1 = (i : ℚ) * (180 : ℕ)) ∧
    (∀ i (h : i < (segments 400 180).length),
      i + 1 < (segments 400 180).length →
        ((segments 400 180).get ⟨i, h⟩).2 = ((180 : ℕ) : ℚ)) ∧
    (∀ h : (segments 400 180).length - 1 < (segments 400 180).length,
      ((segments 400 180).get ⟨(segments 400 180).length - 1, h⟩).2 =
        400 - (((segments 400 180).length - 1 : ℕ) : ℚ) * (180 : ℕ)) ∧
    ((segments 400 180).map Prod.snd).sum = 400 ∧
    |((segments 400 180).map Prod.snd).sum - 400| ≤ 1 / 1000 :=
  segmentation_correct 400 180 (by norm_num) (by norm_num)

/-- Exit status of one `process_job` run: normal completion, the
cancellation return (bot.py lines 647-649), or the `except Exception`
failure report (bot.py lines 711-712). -/
inductive JobExit
  | completed
  | cancelled
  | failed
deriving DecidableEq, Repr

/-- The external world one job run observes: the duration-probe outcome,
audio-stream detection, success of the muffle, continuous-track and
per-segment ffmpeg invocations, the shared cancel flag as read at the
check before each segment index, and whether `shutil.rmtree` raises
during cleanup. -/
structure JobEnv where
  probe : ProbeResult
  hasAudio : Bool
  muffleOk : Bool
  contOk : Bool
  transcodeOk : ℕ → Bool
  cancel : ℕ → Bool
  rmtreeRaises : Bool

/-- The `for i in range(n)` segment loop of `process_job` (bot.py lines
646-707): check the cancel flag and return, compute the clamped length and
break on `length <= 0`, then run the segment transcode — a transcode
failure raises out of the loop.  Returns how many segments were produced
and how the loop ended. -/
def segRun (cancelFlag transcodeOk : ℕ → Bool) (D : ℚ) (L : ℕ) :
    ℕ → ℕ → ℕ → ℕ × JobExit
  | 0, _, produced => (produced, .completed)
  | fuel + 1, i, produced =>
    if cancelFlag i then (produced, .cancelled)
    else if min (L : ℚ) (max 0 (D - (i : ℚ) * L)) ≤ 0 then (produced, .completed)
    else if transcodeOk i then segRun cancelFlag transcodeOk D L fuel (i + 1) (produced + 1)
    else (produced, .failed)

/-- The `try` body of `process_job` (bot.py lines 611-709): probe the
duration, apply the muffle filter, build the continuous track when sync
mode is `cont`, then run the segment loop; any raising step ends the body
as `failed`, caught by the `except` clause. -/
def jobBody (env : JobEnv) (ud : UD) : ℕ × JobExit :=
  match env.probe with
  | .ok d =>
    if env.muffleOk = false then (0, .failed)
    else if ud.sync_mode = "cont" ∧ env.contOk = false then (0, .failed)
    else segRun env.cancel env.transcodeOk d ud.seg_len (nSegments d ud.seg_len) 0 0
  | .probeFailed _ => (0, .failed)
  | .parseError => (0, .failed)

/-- The `finally` block of `process_job` (bot.py lines 713-721): when the
cleanup flag is set, remove the working directory and clear the directory
and both input-path references; if the removal raises, the `except: pass`
swallows the exception (the references are then left in place). -/
def cleanupFinally (rmtreeRaises : Bool) (cleanup : Bool) (ud : UD) : UD :=
  if cleanup then
    if rmtreeRaises then ud
    else { ud with work_dir := none, video_path := none, audio_path := none }
  else ud

/-- `process_job` (bot.py lines 575-721): run the body under
`try/except/finally`.  Returns the requester state after cleanup, the
number of segments produced, and the exit status.  The function is total:
no exception escapes to the caller. -/
def process_job (env : JobEnv) (ud : UD) : UD × ℕ × JobExit :=
  let r := jobBody env ud
  (cleanupFinally env.rmtreeRaises ud.cleanup ud, r.1, r.2)

/-- Loop-invariant form of the C2 cancellation argument: with the cancel
flag false before index `k-1` and true at `k-1`, all transcodes
succeeding, and every index below `n` starting inside the video, the loop
started at index `j ≤ k-1` (having produced `j` segments) stops at `k-1`
with a cancelled exit. -/
theorem segRun_cancelled (cancelFlag transcodeOk : ℕ → Bool) (D : ℚ) (L k n : ℕ)
    (hL : 0 < L)
    (hlen : ∀ i, i < n → (i : ℚ) * L < D)
    (hk1 : 1 ≤ k) (hkn : k ≤ n)
    (hbefore : ∀ i, i < k - 1 → cancelFlag i = false)
    (hat : cancelFlag (k - 1) = true)
    (htr : ∀ i, transcodeOk i = true) :
    ∀ fuel j, j + fuel = n → j ≤ k - 1 →
      segRun cancelFlag transcodeOk D L fuel j j = (k - 1, JobExit.cancelled) := by
  intro fuel
  induction fuel with
  | zero => intro j hj hjk; omega
  | succ f ih =>
    intro j hj hjk
    by_cases hje : j = k - 1
    · subst hje
      simp [segRun, hat]
    · have hjlt : j < k - 1 := by omega
      have hcf := hbefore j hjlt
      have hjn : j < n := by omega
      have hstart := hlen j hjn
      have hLq : (0 : ℚ) < (L : ℚ) := by exact_mod_cast hL
      have hpos : ¬ (min (L : ℚ) (max 0 (D - (j : ℚ) * L)) ≤ 0) := by
        rw [max_eq_right (by linarith : (0 : ℚ) ≤ D - (j : ℚ) * L)]
        push_neg
        exact lt_min hLq (by linarith)
      simp only [segRun, hcf, Bool.false_eq_true, if_false, if_neg hpos, htr j, if_true]
      exact ih (j + 1) (by omega) (by omega)

/-- C2: if the cancel flag is set before segment `k` (1-based, `k ≤ n`)
starts and every earlier transcode succeeds, the job produces exactly
`k − 1` segments and exits with the cancellation acknowledgment — never a
failure, and (the model being a total function) never an exception
surfaced to the requester.  The flag is consulted by the loop before every
segment, which is what makes the stop at `k − 1` possible. -/
theorem cancel_before_segment_k (env : JobEnv) (ud : UD) (D : ℚ) (k : ℕ)
    (hprobe : env.probe = ProbeResult.ok D) (hD : 0 < D) (hL : 0 < ud.seg_len)
    (hm : env.muffleOk = true) (hc : env.contOk = true)
    (hk1 : 1 ≤ k) (hkn : k ≤ nSegments D ud.seg_len)
    (hbefore : ∀ i, i < k - 1 → env.cancel i = false)
    (hat : env.cancel (k - 1) = true)
    (htr : ∀ i, env.transcodeOk i = true) :
    (process_job env ud).2 = (k - 1, JobExit.cancelled) := by
  have hseg := segRun_cancelled env.cancel env.transcodeOk D ud.seg_len k
    (nSegments D ud.seg_len) hL
    (start_lt_duration D ud.seg_len hD hL) hk1 hkn hbefore hat htr
    (nSegments D ud.seg_len) 0 (by omega) (by omega)
  simp [process_job, jobBody, hprobe, hm, hc, hseg]

/-- Concrete environment for the C2 witness: duration 400 s, all ffmpeg
invocations succeed, and the cancel flag is observed set from the check
before segment index 1 (0-based) on. -/
def envCancelAt2 : JobEnv :=
  { probe := .ok 400, hasAudio := false, muffleOk := true, contOk := true,
    transcodeOk := fun _ => true, cancel := fun i => decide (1 ≤ i),
    rmtreeRaises := false }

/-- C2 witness: duration 400 s, segment length 180 s (three segments),
cancel set before segment 2 — exactly one segment is produced and the job
exits cancelled. -/
theorem cancel_before_segment_k_witness :
    (process_job envCancelAt2 udRunning).2 = (1, JobExit.cancelled) :=
  cancel_before_segment_k envCancelAt2 udRunning 400 2 rfl (by norm_num) (by decide)
    rfl rfl (by norm_num)
    (show 2 ≤ nSegments 400 180 from
      le_trans (Nat.lt_ceil.mpr (by norm_num)) (le_max_right 1 _))
    (fun i hi => by
      have h0 : i = 0 := by omega
      subst h0
      rfl)
    rfl
    (fun _ => rfl)

/-- C9: with the cleanup flag set, the `finally` cleanup runs on every exit
path of `process_job` — whatever the environment made the body do
(complete, cancel, or fail at any step), if the directory removal does not
itself raise, the working-directory and both input-path references are
cleared; and an exception raised during cleanup is swallowed: it never
changes the job's reported outcome (and the model stays a total function —
nothing propagates to the caller). -/
theorem cleanup_always_runs (env : JobEnv) (ud : UD) (hcl : ud.cleanup = true) :
    (env.rmtreeRaises = false →
      (process_job env ud).1.work_dir = none ∧
      (process_job env ud).1.video_path = none ∧
      (process_job env ud).1.audio_path = none) ∧
    (∀ rb : Bool,
      (process_job { env with rmtreeRaises := rb } ud).2 = (process_job env ud).2) := by
  constructor
  · intro hrm
    simp [process_job, cleanupFinally, hcl, hrm]
  · intro rb
    cases env
    rfl

/-- C9 witness: the cleanup conclusion evaluated on a concrete failing
environment (the probe fails) and the concrete running state. -/
theorem cleanup_always_runs_witness :
    ((envCancelAt2.rmtreeRaises = false →
      (process_job envCancelAt2 udRunning).1.work_dir = none ∧
      (process_job envCancelAt2 udRunning).1.video_path = none ∧
      (process_job envCancelAt2 udRunning).1.audio_path = none) ∧
    (∀ rb : Bool,
      (process_job { envCancelAt2 with rmtreeRaises := rb } udRunning).2 =
        (process_job envCancelAt2 udRunning).2)) :=
  cleanup_always_runs envCancelAt2 udRunning rfl

/-- The `runner()` closure spawned by the `go` branch (bot.py lines
444-456): run the job, and in the `finally` clause reset the running and
cancel flags.  `jobEffect` is the net state transformation the `try` body
achieved before returning or raising; quantifying over it covers
completion, cancellation, and an exception escaping `process_job`. -/
def runner (jobEffect : UD → UD) (ud : UD) : UD :=
  let ud1 := jobEffect ud
  { ud1 with job_running := false, cancel := false }

/-- C10: whatever the background job did to the state — including the real
`process_job` state effect for any environment — after `runner` finishes
both the running flag and the cancel flag are false, so the requester can
start a new job. -/
theorem runner_resets_flags (jobEffect : UD → UD) (ud : UD) :
    (runner jobEffect ud).job_running = false ∧ (runner jobEffect ud).cancel = false :=
  ⟨rfl, rfl⟩

/-- The `video_in` argument list (bot.py line 659); `start` and `length`
are the already-formatted `f"{x:.3f}"` strings. -/
def video_in (start length video_path : String) : List String :=
  ["-ss", start, "-t", length, "-i", video_path]

/-- The audio input arguments (bot.py lines 661-664): a trim of the
continuous track when sync mode is `cont` and the track exists, otherwise
a looped read of the muffled artifact. -/
def audio_in (sync_mode : String) (audio_full : Option String)
    (start length audio_muffled : String) : List String :=
  if sync_mode = "cont" ∧ audio_full.isSome then
    ["-ss", start, "-t", length, "-i", audio_full.getD ""]
  else ["-stream_loop", "-1", "-i", audio_muffled]

/-- The per-segment transcode command (bot.py lines 666-697): the mix
variant (amix filter graph) when audio mode is `mix` AND the probed video
has an audio stream, otherwise the replace variant mapping only the
prepared audio track. -/
def buildSegmentCmd (audio_mode : String) (has_vid_audio : Bool)
    (vin ain : List String) (length preset crf out_path : String) : List String :=
  if audio_mode = "mix" ∧ has_vid_audio = true then
    ["ffmpeg", "-y", "-hide_banner", "-loglevel", "error"] ++ vin ++ ain ++
      ["-t", length, "-filter_complex",
       "[0:a]volume=1.0[a0];[1:a]volume=1.0[a1];[a0][a1]amix=inputs=2:duration=first:dropout_transition=2[aout]",
       "-map", "0:v:0", "-map", "[aout]",
       "-c:v", "libx264", "-preset", preset, "-crf", crf,
       "-pix_fmt", "yuv420p", "-movflags", "+faststart",
       "-c:a", "aac", "-b:a", "192k", "-shortest", out_path]
  else
    ["ffmpeg", "-y", "-hide_banner", "-loglevel", "error"] ++ vin ++ ain ++
      ["-t", length, "-map", "0:v:0", "-map", "1:a:0",
       "-c:v", "libx264", "-preset", preset, "-crf", crf,
       "-pix_fmt", "yuv420p", "-movflags", "+faststart",
       "-c:a", "aac", "-b:a", "192k", "-shortest", out_path]

/-- C6: when audio mode is `mix` but the probed video has no audio stream,
the command built for every segment is exactly the replace-mode command
(for any value of the audio-stream flag in replace mode, since replace
ignores it): the video's own audio is discarded and only the prepared
track is mapped.  The selection is a plain `if`, so the fallback produces
no error or warning. -/
theorem mix_without_audio_is_replace (vin ain : List String)
    (length preset crf out_path : String) (b : Bool) :
    buildSegmentCmd "mix" false vin ain length preset crf out_path =
      buildSegmentCmd "replace" b vin ain length preset crf out_path := by
  simp [buildSegmentCmd]
